import Mathlib

/-!
Shallow embedding of the pdfcon image-extraction pipeline.

The embedded code is `src/unpack.rs` (preprocessing filter, stream decoder,
page resolver, extraction orchestrator) and the thread-count clamping of
`src/command.rs`.  The container parser (lopdf) and the codec backend
(`pdf_image`) are external collaborators: their accessors are modelled as
total functions over an explicit object datatype, and `decompress` is an
abstract parameter.  File writes are modelled as values of `OutFile`
returned by the decoder instead of filesystem side effects; logging and
progress bars are not modelled.
-/

/-- Error taxonomy.  lopdf accessor failures are collapsed to
`objectNotFound` (missing dictionary key / unresolvable reference) and
`objectType` (wrong-shaped object); `decodeError` stands for a failure of
the external `decompress`; `unpackError` is the aggregate error
`PDFConError::UnpackError` of `src/error.rs`. -/
inductive PDFConError where
  | objectNotFound
  | objectType
  | decodeError
  | codecError
  | unpackError
  deriving Repr, DecidableEq

/-- lopdf `Object`: the container-object datatype.  Dictionaries are
association lists from key to object; a stream carries its dictionary and
its (undecoded) content bytes; `ref` is an indirect reference
(object number, generation). -/
inductive Obj where
  | null
  | boolean (b : Bool)
  | integer (i : Int)
  | real
  | name (s : String)
  | string (s : String)
  | array (xs : List Obj)
  | dict (entries : List (String × Obj))
  | stream (sdict : List (String × Obj)) (content : List Nat)
  | ref (id : Nat × Nat)
  deriving Repr, Inhabited

abbrev Dict := List (String × Obj)

abbrev Bytes := List Nat

/-- lopdf `Dictionary::get`: look up a key, `Err` when absent. -/
def dictGet : Dict → String → Except PDFConError Obj
  | [], _ => .error .objectNotFound
  | (k', v) :: rest, k => if k' = k then .ok v else dictGet rest k

/-- lopdf `Dictionary::remove`: drop the entry (all entries) with the key. -/
def dictRemove : Dict → String → Dict
  | [], _ => []
  | (k', v) :: rest, k =>
      if k' = k then dictRemove rest k else (k', v) :: dictRemove rest k

/-- lopdf `Object::as_reference`. -/
def as_reference : Obj → Except PDFConError (Nat × Nat)
  | .ref id => .ok id
  | _ => .error .objectType

/-- lopdf `Object::as_stream`: the stream's dictionary and content. -/
def as_stream : Obj → Except PDFConError (Dict × Bytes)
  | .stream d c => .ok (d, c)
  | _ => .error .objectType

/-- lopdf `Object::as_name`. -/
def as_name : Obj → Except PDFConError String
  | .name n => .ok n
  | _ => .error .objectType

/-- lopdf `Object::as_str` (byte-string objects). -/
def as_str : Obj → Except PDFConError String
  | .string s => .ok s
  | _ => .error .objectType

/-- lopdf `Object::as_array`. -/
def as_array : Obj → Except PDFConError (List Obj)
  | .array xs => .ok xs
  | _ => .error .objectType

/-- lopdf `Object::as_dict`. -/
def as_dict : Obj → Except PDFConError Dict
  | .dict d => .ok d
  | _ => .error .objectType

/-- lopdf `Object::as_i64`. -/
def as_i64 : Obj → Except PDFConError Int
  | .integer i => .ok i
  | _ => .error .objectType

/-- The `Type` entry of a dictionary as a name, when present. -/
def dictTypeName (d : Dict) : Except PDFConError String :=
  match dictGet d "Type" with
  | .error e => .error e
  | .ok o => as_name o

/-- lopdf `Object::type_name().unwrap_or_default()`: the structural type of
a dictionary or stream (its `Type` entry), the empty string otherwise. -/
def typeName (o : Obj) : String :=
  match o with
  | .dict d => (dictTypeName d).toOption.getD ""
  | .stream d _ => (dictTypeName d).toOption.getD ""
  | _ => ""

/-- The parsed container.  `objects` is the object table used by
`Document::get_object`; `pages` is the ordered page list produced by
`Document::get_pages` (1-based page number paired with the page's object
id). -/
structure Document where
  objects : List ((Nat × Nat) × Obj)
  pages : List (Nat × (Nat × Nat))
  deriving Repr

def lookupObj : List ((Nat × Nat) × Obj) → (Nat × Nat) → Except PDFConError Obj
  | [], _ => .error .objectNotFound
  | (i, o) :: rest, id => if i = id then .ok o else lookupObj rest id

/-- lopdf `Document::get_object`. -/
def Document.get_object (doc : Document) (id : Nat × Nat) : Except PDFConError Obj :=
  lookupObj doc.objects id

/-- The `Unpack` configuration struct of `src/unpack.rs` (paths as plain
strings). -/
structure Unpack where
  threads : Nat
  out_directory : String
  in_file : String
  optimize : Bool
  deriving Repr, DecidableEq

/-! ### Preprocessing filter (`filter_func`, src/unpack.rs lines 20-39) -/

/-- The metadata keys `filter_func` strips from every dictionary object, in
source order: producer (`Produce`), modification date (`ModDate`), creator
(`Creator`), procedure sets (`ProcSet`/`Procset`), page media box
(`MediaBox`), annotations (`Annots`). -/
def removedKeys : List String :=
  ["Produce", "ModDate", "Creator", "ProcSet", "Procset", "MediaBox", "Annots"]

/-- The seven sequential `Dictionary::remove` calls of `filter_func`. -/
def stripMeta (d : Dict) : Dict :=
  dictRemove (dictRemove (dictRemove (dictRemove (dictRemove (dictRemove (dictRemove
    d "Produce") "ModDate") "Creator") "ProcSet") "Procset") "MediaBox") "Annots"

/-- `filter_func` (src/unpack.rs lines 20-39), the load-time preprocessing
filter.  The fixed ignore set `IGNORE_LIST` lives in `src/constants.rs`
(not part of the embedded sources), so it is taken as a parameter.  Only a
plain dictionary object is mutable through `as_dict_mut`, so stream
dictionaries are not stripped, matching the source. -/
def filter_func (ignoreList : List String) (object_id : Nat × Nat) (object : Obj) :
    Option ((Nat × Nat) × Obj) :=
  if typeName object ∈ ignoreList then
    none
  else
    match object with
    | .dict d =>
        if (stripMeta d).isEmpty then none else some (object_id, .dict (stripMeta d))
    | o => some (object_id, o)

/-! ### Stream decoder (`Unpack::process_xobject`, src/unpack.rs lines 42-162) -/

/-- Normalization of the `Filter` attribute (src/unpack.rs lines 66-81):
a single name, else a single byte string, else an array whose elements must
all be names. -/
def normalizeFilters (f : Obj) : Except PDFConError (List String) :=
  match as_name f with
  | .ok n => .ok [n]
  | .error _ =>
      match as_str f with
      | .ok s => .ok [s]
      | .error _ =>
          match as_array f with
          | .error e => .error e
          | .ok xs => xs.mapM as_name

/-- The filter loop of src/unpack.rs lines 94-104, already applied to the
reversed filter list: `DCTDecode` sets the jpeg flag, `FlateDecode` runs the
external `decompress` on the current content, and any other filter
identifier falls through without effect or error. -/
def applyFilters (dec : Bytes → Except PDFConError Bytes) :
    List String → Bool → Bytes → Except PDFConError (Bool × Bytes)
  | [], is_jpeg, content => .ok (is_jpeg, content)
  | f :: rest, is_jpeg, content =>
      if f = "DCTDecode" then applyFilters dec rest true content
      else if f = "FlateDecode" then
        match dec content with
        | .error e => .error e
        | .ok c => applyFilters dec rest is_jpeg c
      else applyFilters dec rest is_jpeg content

/-- Rust `i64 as u32`: keep the low 32 bits. -/
def u32cast (i : Int) : Nat := (i % (2 ^ 32 : Int)).toNat

/-- Rust `i64 as u8`: keep the low 8 bits. -/
def u8cast (i : Int) : Nat := (i % (2 ^ 8 : Int)).toNat

/-- The image attributes read for the PNG branches: width, height,
bits-per-component, color-space name (src/unpack.rs lines 118-124 and
140-146; each lookup and shape check fails the object). -/
structure ImgMeta where
  width : Nat
  height : Nat
  bits : Nat
  colorSpaceName : String
  deriving Repr, DecidableEq

def readImageMeta (sdict : Dict) : Except PDFConError ImgMeta :=
  match dictGet sdict "Width" with
  | .error e => .error e
  | .ok w =>
      match as_i64 w with
      | .error e => .error e
      | .ok wi =>
          match dictGet sdict "Height" with
          | .error e => .error e
          | .ok h =>
              match as_i64 h with
              | .error e => .error e
              | .ok hi =>
                  match dictGet sdict "BitsPerComponent" with
                  | .error e => .error e
                  | .ok b =>
                      match as_i64 b with
                      | .error e => .error e
                      | .ok bi =>
                          match dictGet sdict "ColorSpace" with
                          | .error e => .error e
                          | .ok cs =>
                              match as_name cs with
                              | .error e => .error e
                              | .ok csn =>
                                  .ok ⟨u32cast wi, u32cast hi, u8cast bi, csn⟩

/-- Modelled collaborator `pdf_image::PDFConColorSpace::from_pdf_format`
(not under the embedded sources): the pixel-format descriptor is kept
abstract as the (color-space name, bits-per-component) pair the source
passes in. -/
def from_pdf_format (p : String × Nat) : String × Nat := p

/-- Fuel-based base-10 integer logarithm; with fuel ≥ n this computes
Rust's `usize::ilog10` (which the source only calls on a positive page
count). -/
def ilog10Aux : Nat → Nat → Nat
  | 0, _ => 0
  | fuel + 1, n => if n < 10 then 0 else ilog10Aux fuel (n / 10) + 1

/-- Rust `usize::ilog10`. -/
def ilog10 (n : Nat) : Nat := ilog10Aux n n

/-- `total_pages.ilog10() + 1` (src/unpack.rs line 107). -/
def paddingWidth (total_pages : Nat) : Nat := ilog10 total_pages + 1

/-- Rust `format!("{:0width$}", n)` / `format!("{:0>5}", n)`: the decimal
digits of the number left-padded with zeros to the width. -/
def zeroPad (s : String) (w : Nat) : String :=
  String.mk (List.replicate (w - s.length) '0') ++ s

/-- `PathBuf::join` on string paths. -/
def joinPath (dir file : String) : String := dir ++ "/" ++ file

/-- A file handed to the codec backend for writing: `pdf_image::save_jpeg`
receives (content, path, optimize); `pdf_image::encode_and_save_png`
receives (content, width, height, color-space descriptor, path,
optimize). -/
inductive OutFile where
  | jpeg (path : String) (bytes : Bytes) (optimize : Bool)
  | png (path : String) (bytes : Bytes) (width height : Nat)
      (colorSpace : String × Nat) (optimize : Bool)
  deriving Repr

def OutFile.path : OutFile → String
  | .jpeg p _ _ => p
  | .png p _ _ _ _ _ => p

def OutFile.ext : OutFile → String
  | .jpeg _ _ _ => "jpg"
  | .png _ _ _ _ _ _ => "png"

/-- `Unpack::process_xobject` (src/unpack.rs lines 42-162).  Returns
`none` for a non-image XObject, `some` file for an image, or the first
error.  The codec write itself is modelled as constructing the
`OutFile`. -/
def process_xobject (dec : Bytes → Except PDFConError Bytes) (u : Unpack)
    (doc : Document) (page_num : Nat) (total_pages : Nat) (reference : Obj) :
    Except PDFConError (Option OutFile) :=
  match as_reference reference with
  | .error e => .error e
  | .ok ref_id =>
      match doc.get_object ref_id with
      | .error e => .error e
      | .ok obj =>
          match as_stream obj with
          | .error e => .error e
          | .ok (sdict, content0) =>
              match dictGet sdict "Subtype" with
              | .error e => .error e
              | .ok sub =>
                  match as_name sub with
                  | .error e => .error e
                  | .ok subtype =>
                      if subtype ≠ "Image" then .ok none
                      else
                        match dictGet sdict "Filter" with
                        | .ok f =>
                            match normalizeFilters f with
                            | .error e => .error e
                            | .ok filter_list =>
                                match applyFilters dec filter_list.reverse false content0 with
                                | .error e => .error e
                                | .ok (is_jpeg, content) =>
                                    if is_jpeg then
                                      .ok (some (.jpeg
                                        (joinPath u.out_directory
                                          (zeroPad (toString page_num) (paddingWidth total_pages) ++ ".jpg"))
                                        content u.optimize))
                                    else
                                      match readImageMeta sdict with
                                      | .error e => .error e
                                      | .ok m =>
                                          .ok (some (.png
                                            (joinPath u.out_directory
                                              (zeroPad (toString page_num) (paddingWidth total_pages) ++ ".png"))
                                            content m.width m.height
                                            (from_pdf_format (m.colorSpaceName, m.bits)) u.optimize))
                        | .error _ =>
                            match readImageMeta sdict with
                            | .error e => .error e
                            | .ok m =>
                                .ok (some (.png
                                  (joinPath u.out_directory (zeroPad (toString page_num) 5 ++ ".png"))
                                  content0 m.width m.height
                                  (from_pdf_format (m.colorSpaceName, m.bits)) u.optimize))

/-! ### Page resolver (`Unpack::find_xobject_images_in_page`, lines 164-178) -/

/-- The XObject loop of src/unpack.rs lines 174-176: process the entries in
order, stopping at the first error.  The first component records the files
written before the stop (the source writes each file inside
`process_xobject` before moving on); `none` in the second component means
the page succeeded. -/
def runEntries (dec : Bytes → Except PDFConError Bytes) (u : Unpack) (doc : Document)
    (page_num : Nat) (total_pages : Nat) :
    List (String × Obj) → List OutFile × Option PDFConError
  | [] => ([], none)
  | (_, x_ref) :: rest =>
      match process_xobject dec u doc page_num total_pages x_ref with
      | .error e => ([], some e)
      | .ok o =>
          let r := runEntries dec u doc page_num total_pages rest
          (o.toList ++ r.1, r.2)

/-- `Unpack::find_xobject_images_in_page` (src/unpack.rs lines 164-178):
resolve `Resources` then `XObject`, each lookup and dictionary coercion
failing the page, then run the entry loop. -/
def find_xobject_images_in_page (dec : Bytes → Except PDFConError Bytes) (u : Unpack)
    (doc : Document) (page_num : Nat) (page_dict : Dict) (total_pages : Nat) :
    List OutFile × Option PDFConError :=
  match dictGet page_dict "Resources" with
  | .error e => ([], some e)
  | .ok r =>
      match as_dict r with
      | .error e => ([], some e)
      | .ok resources_dict =>
          match dictGet resources_dict "XObject" with
          | .error e => ([], some e)
          | .ok x =>
              match as_dict x with
              | .error e => ([], some e)
              | .ok x_obj_dict => runEntries dec u doc page_num total_pages x_obj_dict

/-! ### Extraction orchestrator (`Unpack::extract_images`, lines 180-222) -/

/-- The per-page closure of src/unpack.rs lines 190-201: resolve the page
object to a dictionary, then run the page resolver. -/
def processPage (dec : Bytes → Except PDFConError Bytes) (u : Unpack) (doc : Document)
    (total_pages : Nat) (pg : Nat × (Nat × Nat)) : List OutFile × Option PDFConError :=
  match doc.get_object pg.2 with
  | .error e => ([], some e)
  | .ok o =>
      match as_dict o with
      | .error e => ([], some e)
      | .ok page_dict => find_xobject_images_in_page dec u doc pg.1 page_dict total_pages

/-- `Unpack::extract_images` (src/unpack.rs lines 180-222): run the page
resolver over every page, collect all results, and return the single
aggregate `unpackError` exactly when some page failed (each page error is
only logged in the source).  The first component gathers every file
written. -/
def extract_images (dec : Bytes → Except PDFConError Bytes) (u : Unpack)
    (doc : Document) : List OutFile × Option PDFConError :=
  let results := doc.pages.map (processPage dec u doc doc.pages.length)
  ((results.map Prod.fst).flatten,
   if results.any (fun r => r.2.isSome) then some .unpackError else none)

/-! ### Thread-count clamping (`get_command`, src/command.rs lines 35-41) -/

/-- Rust `Ord::clamp` on `usize` (requires `lo ≤ hi`). -/
def rustClamp (x lo hi : Nat) : Nat := if x < lo then lo else if hi < x then hi else x

/-- The `threads` field built by `get_command` for the unpack subcommand
(src/command.rs lines 36-40): the requested value, defaulting to half the
physical core count, clamped into `[1, physical * 2]`.  `Unpack::run`
passes this value unchanged to the worker-pool builder. -/
def unpackThreads (requested : Option Nat) (physicalCores : Nat) : Nat :=
  rustClamp (requested.getD (physicalCores / 2)) 1 (physicalCores * 2)

/-! ### Concrete fixtures used by counterexamples and witnesses -/

/-- A decompression backend that always fails; the fixtures below never
reach it. -/
def dec0 : Bytes → Except PDFConError Bytes := fun _ => .error .decodeError

/-- A decompression backend that prepends a byte, so that decompressed
output is distinguishable from its input. -/
def dec1 : Bytes → Except PDFConError Bytes := fun bs => .ok (0 :: bs)

def u0 : Unpack := ⟨1, "out", "in.pdf", false⟩

/-- A one-object document whose only object is `o` at id (1, 0), with no
page table (the fixtures drive `process_xobject` directly). -/
def docOf (o : Obj) : Document := ⟨[((1, 0), o)], []⟩

/-- An image stream declaring the unsupported filter `LZWDecode`. -/
def sdictC1 : Dict :=
  [("Subtype", .name "Image"), ("Filter", .name "LZWDecode"),
   ("Width", .integer 2), ("Height", .integer 2),
   ("BitsPerComponent", .integer 8), ("ColorSpace", .name "DeviceRGB")]

def docC1 : Document := ⟨[((1, 0), .stream sdictC1 [9, 9, 9])], [(1, (1, 0))]⟩

/-- An image stream with no `Filter` key (raw pixel buffer). -/
def sdictRaw : Dict :=
  [("Subtype", .name "Image"),
   ("Width", .integer 2), ("Height", .integer 2),
   ("BitsPerComponent", .integer 8), ("ColorSpace", .name "DeviceRGB")]

def docRaw : Document := ⟨[((1, 0), .stream sdictRaw [7, 7])], [(1, (1, 0))]⟩

/-- A one-page document whose page dictionary omits the `Resources` key. -/
def docNoRes : Document := ⟨[((1, 0), .dict [("Type", .name "Page")])], [(1, (1, 0))]⟩

/-- A one-page document with a well-formed but empty `XObject`
dictionary: one page, zero image resources. -/
def docEmptyX : Document :=
  ⟨[((1, 0), .dict [("Resources", .dict [("XObject", .dict [])])])], [(1, (1, 0))]⟩

/-- An image stream whose only filter is `DCTDecode`. -/
def sdictDCT : Dict := [("Subtype", .name "Image"), ("Filter", .name "DCTDecode")]

def docDCT : Document := ⟨[((1, 0), .stream sdictDCT [1, 2, 3])], [(1, (1, 0))]⟩

/-- An image stream whose `Filter` is present but an empty array. -/
def sdictFE : Dict :=
  [("Subtype", .name "Image"), ("Filter", .array []),
   ("Width", .integer 2), ("Height", .integer 2),
   ("BitsPerComponent", .integer 8), ("ColorSpace", .name "DeviceRGB")]

def docFE : Document := ⟨[((1, 0), .stream sdictFE [3, 4])], [(1, (1, 0))]⟩

/-- An image stream filtered by `FlateDecode` then `DCTDecode`. -/
def sdictFD : Dict :=
  [("Subtype", .name "Image"), ("Filter", .array [.name "FlateDecode", .name "DCTDecode"])]

def docFD : Document := ⟨[((1, 0), .stream sdictFD [5, 6])], [(1, (1, 0))]⟩

/-- XObject entries for the short-circuit fixture: a valid DCT image, a
dangling reference, then another valid DCT image. -/
def xdC7 : List (String × Obj) := [("A", .ref (1, 0)), ("B", .ref (9, 0)), ("C", .ref (2, 0))]

def pageDictC7 : Dict := [("Resources", .dict [("XObject", .dict xdC7)])]

def docC7 : Document :=
  ⟨[((1, 0), .stream sdictDCT [1, 2, 3]), ((2, 0), .stream sdictDCT [4])], [(1, (1, 0))]⟩

/-- A page on which every XObject entry is a reference to a stream whose
`Subtype` is a name other than `Image`, reached through a well-formed
`Resources`/`XObject` chain: the shape under which the page has zero image
resources. -/
def pageHasNoImages (doc : Document) (pg : Nat × (Nat × Nat)) : Prop :=
  ∃ pd rd xd, doc.get_object pg.2 = .ok (.dict pd) ∧
    dictGet pd "Resources" = .ok (.dict rd) ∧
    dictGet rd "XObject" = .ok (.dict xd) ∧
    ∀ e ∈ xd, ∃ id sd c sub, e.2 = Obj.ref id ∧
      doc.get_object id = .ok (.stream sd c) ∧
      dictGet sd "Subtype" = .ok (.name sub) ∧ sub ≠ "Image"

/-! ### Helper lemmas -/

lemma ilog10Aux_eq_log (fuel : Nat) : ∀ n : Nat, n ≤ fuel → ilog10Aux fuel n = Nat.log 10 n := by
  induction fuel with
  | zero =>
      intro n hn
      have hn0 : n = 0 := Nat.le_zero.mp hn
      subst hn0
      simp [ilog10Aux, Nat.log_zero_right]
  | succ fuel ih =>
      intro n hn
      unfold ilog10Aux
      by_cases h10 : n < 10
      · simp [h10, Nat.log_of_lt h10]
      · push_neg at h10
        rw [if_neg (by omega)]
        have hdiv : n / 10 ≤ fuel := by
          have := Nat.div_lt_self (show 0 < n by omega) (show 1 < 10 by norm_num)
          omega
        rw [ih (n / 10) hdiv, Nat.log_of_one_lt_of_le (by norm_num) h10]

lemma ilog10_eq_log (n : Nat) : ilog10 n = Nat.log 10 n :=
  ilog10Aux_eq_log n n (Nat.le_refl n)

/-- The padding width of src/unpack.rs line 107 is the decimal digit count
of the total page count. -/
lemma paddingWidth_eq_digit_count (n : Nat) (hn : n ≠ 0) :
    paddingWidth n = (Nat.digits 10 n).length := by
  rw [paddingWidth, ilog10_eq_log, Nat.digits_len 10 n (by norm_num) hn]

/-! ### Claim theorems -/

/-- C1: the code at the failing input.  An image stream whose filter list is
the single unsupported identifier `LZWDecode` is processed without any
error: the loop of src/unpack.rs lines 98-104 has no branch for unknown
filters, so the stream's still-encoded bytes `[9, 9, 9]` are passed through
unchanged to the PNG writer instead of surfacing an unsupported-filter
error. -/
theorem C1_unsupported_filter_silently_passes_through :
    process_xobject dec0 u0 docC1 1 1 (.ref (1, 0)) =
      .ok (some (.png "out/1.png" [9, 9, 9] 2 2 ("DeviceRGB", 8) false)) ∧
    ∀ e, process_xobject dec0 u0 docC1 1 1 (.ref (1, 0)) ≠ .error e := by
  refine ⟨rfl, fun e h => ?_⟩
  rw [show process_xobject dec0 u0 docC1 1 1 (.ref (1, 0)) =
      .ok (some (.png "out/1.png" [9, 9, 9] 2 2 ("DeviceRGB", 8) false)) from rfl] at h
  exact Except.noConfusion h

/-- C2 counterexample: a one-page document whose page dictionary omits the
`Resources` key.  `Dictionary::get` returns an error for a missing key
(src/unpack.rs line 172 propagates it with `?`), so the page fails and the
run returns the aggregate error instead of succeeding. -/
theorem C2_missing_resources_key_fails_run :
    extract_images dec0 u0 docNoRes = ([], some PDFConError.unpackError) ∧
    (extract_images dec0 u0 docNoRes).2 ≠ none :=
  ⟨rfl, by decide⟩

/-- C3 counterexample: an image stream with no `Filter` key in a 9-page
document is written with the fixed five-character padding of src/unpack.rs
line 148 (`{:0>5}`), not the one-digit padding computed from the total page
count. -/
theorem C3_absent_filter_uses_five_digit_padding :
    process_xobject dec0 u0 docRaw 1 9 (.ref (1, 0)) =
      .ok (some (.png "out/00001.png" [7, 7] 2 2 ("DeviceRGB", 8) false)) ∧
    paddingWidth 9 = 1 ∧ "00001".length = 5 :=
  ⟨rfl, rfl, rfl⟩

/-- C9: for every requested worker-thread count (`None` models an absent
argument, which defaults to half the physical core count), the thread count
built into the `Unpack` value by `get_command` (src/command.rs lines 36-40)
and passed unchanged to the worker-pool builder lies in
[1, 2 × physical core count]. -/
theorem C9_thread_count_clamped (requested : Option Nat) (physical : Nat)
    (h : 1 ≤ physical) :
    1 ≤ unpackThreads requested physical ∧ unpackThreads requested physical ≤ 2 * physical := by
  unfold unpackThreads rustClamp
  split
  · omega
  · split <;> omega

theorem C9_thread_count_clamped_witness :
    1 ≤ unpackThreads (some 0) 4 ∧ unpackThreads (some 0) 4 ≤ 2 * 4 :=
  C9_thread_count_clamped (some 0) 4 (by norm_num)

lemma process_xobject_nonimage (dec : Bytes → Except PDFConError Bytes) (u : Unpack)
    (doc : Document) (pn tp : Nat) (e : Obj) (id : Nat × Nat) (sd : Dict) (c : Bytes)
    (sub : String) (he : e = Obj.ref id) (hobj : doc.get_object id = .ok (.stream sd c))
    (hsub : dictGet sd "Subtype" = .ok (.name sub)) (hne : sub ≠ "Image") :
    process_xobject dec u doc pn tp e = .ok none := by
  subst he
  unfold process_xobject
  simp [as_reference, hobj, as_stream, hsub, as_name, hne]

lemma runEntries_all_none (dec : Bytes → Except PDFConError Bytes) (u : Unpack)
    (doc : Document) (pn tp : Nat) (xd : List (String × Obj))
    (h : ∀ e ∈ xd, process_xobject dec u doc pn tp e.2 = .ok none) :
    runEntries dec u doc pn tp xd = ([], none) := by
  induction xd with
  | nil => rfl
  | cons x rest ih =>
      obtain ⟨n, r⟩ := x
      have hx := h (n, r) (List.mem_cons_self _ _)
      simp only [runEntries, hx]
      simp [ih (fun e he => h e (List.mem_cons_of_mem _ he))]

lemma extract_aux (l : List (Nat × (Nat × Nat)))
    (f : Nat × (Nat × Nat) → List OutFile × Option PDFConError)
    (h : ∀ pg ∈ l, f pg = ([], none)) :
    ((l.map f).map Prod.fst).flatten = [] ∧ (l.map f).any (fun r => r.2.isSome) = false := by
  induction l with
  | nil => simp
  | cons x xs ih =>
      have hx := h x (List.mem_cons_self _ _)
      have ihx := ih (fun e he => h e (List.mem_cons_of_mem _ he))
      refine ⟨?_, ?_⟩
      · rw [List.map_cons, List.map_cons, List.flatten_cons, hx]
        simpa using ihx.1
      · rw [List.map_cons, List.any_cons, hx]
        simpa using ihx.2

/-- C2 (amended): for every document in which each page resolves to a
dictionary with a well-formed `Resources`/`XObject` chain whose entries are
all non-image XObject streams — N pages, zero image resources — the run
succeeds and produces zero output files. -/
theorem C2_no_image_resources_run_ok (dec : Bytes → Except PDFConError Bytes) (u : Unpack)
    (doc : Document) (h : ∀ pg ∈ doc.pages, pageHasNoImages doc pg) :
    extract_images dec u doc = ([], none) := by
  have hpp : ∀ pg ∈ doc.pages, processPage dec u doc doc.pages.length pg = ([], none) := by
    intro pg hpg
    obtain ⟨pd, rd, xd, hobj, hres, hxo, hent⟩ := h pg hpg
    unfold processPage
    simp only [hobj, as_dict]
    unfold find_xobject_images_in_page
    simp only [hres, as_dict, hxo]
    refine runEntries_all_none dec u doc pg.1 doc.pages.length xd ?_
    intro e he
    obtain ⟨id, sd, c, sub, he2, hobj2, hsub2, hne2⟩ := hent e he
    exact process_xobject_nonimage dec u doc pg.1 doc.pages.length e.2 id sd c sub
      he2 hobj2 hsub2 hne2
  unfold extract_images
  have ha := extract_aux doc.pages (processPage dec u doc doc.pages.length) hpp
  simp only [ha.1, ha.2]
  simp

theorem C2_no_image_resources_run_ok_witness :
    extract_images dec0 u0 docEmptyX = ([], none) := by
  refine C2_no_image_resources_run_ok dec0 u0 docEmptyX ?_
  intro pg hpg
  simp only [docEmptyX, List.mem_singleton] at hpg
  subst hpg
  refine ⟨[("Resources", .dict [("XObject", .dict [])])], [("XObject", .dict [])], [],
    rfl, rfl, rfl, ?_⟩
  intro e he
  simp at he

/-- C3 (amended): whenever the stream's `Filter` key is present, the output
file's name is the page number zero-padded to the computed padding width —
which equals the decimal digit count of the total page count — followed by
the extension matching the output decision. -/
theorem C3_padding_width_when_filter_present (dec : Bytes → Except PDFConError Bytes)
    (u : Unpack) (doc : Document) (pn tp : Nat) (rid : Nat × Nat) (sdict : Dict)
    (content : Bytes) (f : Obj) (out : OutFile)
    (hobj : doc.get_object rid = .ok (.stream sdict content))
    (hfil : dictGet sdict "Filter" = .ok f)
    (hout : process_xobject dec u doc pn tp (.ref rid) = .ok (some out)) :
    out.path = joinPath u.out_directory
      (zeroPad (toString pn) (paddingWidth tp) ++ ("." ++ out.ext)) ∧
    (tp ≠ 0 → paddingWidth tp = (Nat.digits 10 tp).length) := by
  refine ⟨?_, fun h => paddingWidth_eq_digit_count tp h⟩
  unfold process_xobject at hout
  simp only [as_reference, hobj, as_stream] at hout
  cases hsub : dictGet sdict "Subtype" with
  | error e => simp [hsub] at hout
  | ok sub =>
      simp only [hsub] at hout
      cases hname : as_name sub with
      | error e => simp [hname] at hout
      | ok s =>
          simp only [hname] at hout
          by_cases hs : s = "Image"
          · subst hs
            rw [if_neg (by simp)] at hout
            simp only [hfil] at hout
            cases hnf : normalizeFilters f with
            | error e => simp [hnf] at hout
            | ok l =>
                simp only [hnf] at hout
                cases haf : applyFilters dec l.reverse false content with
                | error e => simp [haf] at hout
                | ok bc =>
                    obtain ⟨b, c⟩ := bc
                    simp only [haf] at hout
                    cases b with
                    | true =>
                        simp at hout
                        rw [← hout]
                        rfl
                    | false =>
                        cases hmeta : readImageMeta sdict with
                        | error e => simp [hmeta] at hout
                        | ok m =>
                            simp only [hmeta] at hout
                            simp at hout
                            rw [← hout]
                            rfl
          · rw [if_pos hs] at hout; simp at hout

theorem C3_padding_width_when_filter_present_witness :
    (OutFile.png "out/1.png" [3, 4] 2 2 ("DeviceRGB", 8) false).path =
      joinPath "out" (zeroPad (toString 1) (paddingWidth 9) ++
        ("." ++ (OutFile.png "out/1.png" [3, 4] 2 2 ("DeviceRGB", 8) false).ext)) ∧
    ((9 : Nat) ≠ 0 → paddingWidth 9 = (Nat.digits 10 9).length) :=
  C3_padding_width_when_filter_present dec0 u0 docFE 1 9 (1, 0) sdictFE [3, 4]
    (.array []) (OutFile.png "out/1.png" [3, 4] 2 2 ("DeviceRGB", 8) false) rfl rfl rfl

/-- C4: an image stream whose normalized filter list is exactly
`[DCTDecode]` produces a `.jpg` output whose bytes are the stream's
content, byte for byte, with no transform applied. -/
theorem C4_dct_passthrough_jpg (dec : Bytes → Except PDFConError Bytes) (u : Unpack)
    (doc : Document) (pn tp : Nat) (rid : Nat × Nat) (sdict : Dict) (content : Bytes) (f : Obj)
    (hobj : doc.get_object rid = .ok (.stream sdict content))
    (hsub : dictGet sdict "Subtype" = .ok (.name "Image"))
    (hfil : dictGet sdict "Filter" = .ok f)
    (hnorm : normalizeFilters f = .ok ["DCTDecode"]) :
    process_xobject dec u doc pn tp (.ref rid) =
      .ok (some (.jpeg (joinPath u.out_directory
        (zeroPad (toString pn) (paddingWidth tp) ++ ".jpg")) content u.optimize)) := by
  unfold process_xobject
  simp [as_reference, hobj, as_stream, hsub, as_name, hfil, hnorm, applyFilters]

theorem C4_dct_passthrough_jpg_witness :
    process_xobject dec0 u0 docDCT 1 150 (.ref (1, 0)) =
      .ok (some (.jpeg (joinPath "out"
        (zeroPad (toString 1) (paddingWidth 150) ++ ".jpg")) [1, 2, 3] false)) :=
  C4_dct_passthrough_jpg dec0 u0 docDCT 1 150 (1, 0) sdictDCT [1, 2, 3]
    (.name "DCTDecode") rfl rfl rfl rfl

/-- C10: when the filter list contains both `FlateDecode` and `DCTDecode`
(either order), the content is decompressed and the decompressed bytes go
to the JPEG writer under a `.jpg` path: the DCT filter anywhere in the list
decides the JPEG output. -/
theorem C10_flate_dct_decompressed_jpeg (dec : Bytes → Except PDFConError Bytes)
    (u : Unpack) (doc : Document) (pn tp : Nat) (rid : Nat × Nat) (sdict : Dict)
    (content d : Bytes) (f : Obj) (l : List String)
    (hobj : doc.get_object rid = .ok (.stream sdict content))
    (hsub : dictGet sdict "Subtype" = .ok (.name "Image"))
    (hfil : dictGet sdict "Filter" = .ok f)
    (hnorm : normalizeFilters f = .ok l)
    (hl : l = ["FlateDecode", "DCTDecode"] ∨ l = ["DCTDecode", "FlateDecode"])
    (hdec : dec content = .ok d) :
    process_xobject dec u doc pn tp (.ref rid) =
      .ok (some (.jpeg (joinPath u.out_directory
        (zeroPad (toString pn) (paddingWidth tp) ++ ".jpg")) d u.optimize)) := by
  unfold process_xobject
  rcases hl with rfl | rfl <;>
    simp [as_reference, hobj, as_stream, hsub, as_name, hfil, hnorm, applyFilters, hdec]

theorem C10_flate_dct_decompressed_jpeg_witness :
    process_xobject dec1 u0 docFD 1 1 (.ref (1, 0)) =
      .ok (some (.jpeg (joinPath "out"
        (zeroPad (toString 1) (paddingWidth 1) ++ ".jpg")) [0, 5, 6] false)) :=
  C10_flate_dct_decompressed_jpeg dec1 u0 docFD 1 1 (1, 0) sdictFD [5, 6] [0, 5, 6]
    (.array [.name "FlateDecode", .name "DCTDecode"]) ["FlateDecode", "DCTDecode"]
    rfl rfl rfl rfl (Or.inl rfl) rfl

lemma dictGet_cons_ne (k' k : String) (v : Obj) (d : Dict) (h : k' ≠ k) :
    dictGet ((k', v) :: d) k = dictGet d k := by
  simp [dictGet, h]

lemma hget_docOf (o : Obj) : (docOf o).get_object (1, 0) = .ok o := by
  simp [docOf, Document.get_object, lookupObj]

/-- `process_xobject` treats two `Filter` attribute values identically
whenever they normalize to the same filter list: the value is only ever
consulted through the normalization of src/unpack.rs lines 66-81. -/
lemma process_xobject_filter_value_congr (dec : Bytes → Except PDFConError Bytes)
    (u : Unpack) (pn tp : Nat) (base : Dict) (content : Bytes) (v w : Obj)
    (h : normalizeFilters v = normalizeFilters w) :
    process_xobject dec u (docOf (.stream (("Filter", v) :: base) content)) pn tp (.ref (1, 0)) =
    process_xobject dec u (docOf (.stream (("Filter", w) :: base) content)) pn tp (.ref (1, 0)) := by
  have hmeta : ∀ x : Obj, readImageMeta (("Filter", x) :: base) = readImageMeta base := by
    intro x
    unfold readImageMeta
    rw [dictGet_cons_ne _ _ _ _ (by decide), dictGet_cons_ne _ _ _ _ (by decide),
        dictGet_cons_ne _ _ _ _ (by decide), dictGet_cons_ne _ _ _ _ (by decide)]
  unfold process_xobject
  simp only [as_reference, hget_docOf, as_stream,
    dictGet_cons_ne "Filter" "Subtype" _ _ (by decide)]
  cases hsub : dictGet base "Subtype" with
  | error e => rfl
  | ok sub =>
      dsimp only
      cases hname : as_name sub with
      | error e => rfl
      | ok s =>
          dsimp only
          by_cases hs : s = "Image"
          · subst hs
            rw [if_neg (by simp), if_neg (by simp)]
            have hfil : ∀ x : Obj, dictGet (("Filter", x) :: base) "Filter" = .ok x := by
              intro x; simp [dictGet]
            rw [hfil v, hfil w]
            dsimp only
            rw [h, hmeta v, hmeta w]
          · rw [if_pos hs, if_pos hs]

/-- C5: a `Filter` attribute given as a single name, a single string, or a
one-element array holding that name yields the same decode outcome for an
otherwise-identical stream: three input shapes, one result. -/
theorem C5_filter_shape_one_outcome (dec : Bytes → Except PDFConError Bytes) (u : Unpack)
    (pn tp : Nat) (n : String) (base : Dict) (content : Bytes) :
    (process_xobject dec u (docOf (.stream (("Filter", .name n) :: base) content)) pn tp (.ref (1, 0)) =
     process_xobject dec u (docOf (.stream (("Filter", .string n) :: base) content)) pn tp (.ref (1, 0))) ∧
    (process_xobject dec u (docOf (.stream (("Filter", .name n) :: base) content)) pn tp (.ref (1, 0)) =
     process_xobject dec u (docOf (.stream (("Filter", .array [.name n]) :: base) content)) pn tp (.ref (1, 0))) :=
  ⟨process_xobject_filter_value_congr dec u pn tp base content _ _ rfl,
   process_xobject_filter_value_congr dec u pn tp base content _ _ rfl⟩

/-- C6: the orchestrator collects every page's files regardless of other
pages' failures, the run result is the single aggregate `unpackError`
exactly when at least one page failed (and `none`, i.e. `Ok`, exactly when
every page succeeded), and no individual page error is ever surfaced: the
run result is always one of those two values.  Per-page error logging is a
side effect not modelled here. -/
theorem C6_isolate_and_aggregate (dec : Bytes → Except PDFConError Bytes) (u : Unpack)
    (doc : Document) :
    (extract_images dec u doc).1 =
      (doc.pages.map (fun pg => (processPage dec u doc doc.pages.length pg).1)).flatten ∧
    ((extract_images dec u doc).2 = none ↔
      ∀ pg ∈ doc.pages, (processPage dec u doc doc.pages.length pg).2 = none) ∧
    ((extract_images dec u doc).2 = some .unpackError ↔
      ∃ pg ∈ doc.pages, (processPage dec u doc doc.pages.length pg).2 ≠ none) ∧
    ((extract_images dec u doc).2 = none ∨ (extract_images dec u doc).2 = some .unpackError) := by
  have h1 : (extract_images dec u doc).1 =
      ((doc.pages.map (processPage dec u doc doc.pages.length)).map Prod.fst).flatten := rfl
  have h2 : (extract_images dec u doc).2 =
      (if (doc.pages.map (processPage dec u doc doc.pages.length)).any (fun r => r.2.isSome)
        then some .unpackError else none) := rfl
  have hiff : (doc.pages.map (processPage dec u doc doc.pages.length)).any
      (fun r => r.2.isSome) = true ↔
      ∃ pg ∈ doc.pages, (processPage dec u doc doc.pages.length pg).2 ≠ none := by
    simp only [List.any_eq_true, Option.isSome_iff_ne_none]
    constructor
    · rintro ⟨x, hx, hne⟩
      obtain ⟨pg, hpg, rfl⟩ := List.mem_map.mp hx
      exact ⟨pg, hpg, hne⟩
    · rintro ⟨pg, hpg, hne⟩
      exact ⟨_, List.mem_map_of_mem _ hpg, hne⟩
  refine ⟨by rw [h1, List.map_map]; rfl, ?_⟩
  by_cases hA : (doc.pages.map (processPage dec u doc doc.pages.length)).any
      (fun r => r.2.isSome) = true
  · rw [h2, if_pos hA]
    obtain ⟨pg, hm, hne⟩ := hiff.mp hA
    refine ⟨⟨fun hc => Option.noConfusion hc, fun hall => absurd (hall pg hm) hne⟩,
      ⟨fun _ => ⟨pg, hm, hne⟩, fun _ => rfl⟩, Or.inr rfl⟩
  · rw [h2, if_neg hA]
    have hforall : ∀ pg ∈ doc.pages, (processPage dec u doc doc.pages.length pg).2 = none := by
      intro pg hm
      by_contra hc
      exact hA (hiff.mpr ⟨pg, hm, hc⟩)
    exact ⟨⟨fun _ => hforall, fun _ => rfl⟩,
      ⟨fun hc => Option.noConfusion hc, fun ⟨pg, hm, hne⟩ => absurd (hforall pg hm) hne⟩,
      Or.inl rfl⟩

/-- The XObject loop stops at the first failing entry: with every entry of
`pre` succeeding and `e` failing with `err`, the loop's result is the files
of `pre` and the error `err`, with no entry of `post` contributing. -/
lemma runEntries_prefix_error (dec : Bytes → Except PDFConError Bytes) (u : Unpack)
    (doc : Document) (pn tp : Nat) (pre : List (String × Obj)) :
    ∀ (e : String × Obj) (post : List (String × Obj)) (err : PDFConError),
    (∀ x ∈ pre, ∃ o, process_xobject dec u doc pn tp x.2 = .ok o) →
    process_xobject dec u doc pn tp e.2 = .error err →
    runEntries dec u doc pn tp (pre ++ e :: post) =
      (pre.filterMap (fun x => ((process_xobject dec u doc pn tp x.2).toOption).bind id),
       some err) := by
  induction pre with
  | nil =>
      intro e post err _ he
      obtain ⟨n, r⟩ := e
      simp only at he
      simp [runEntries, he]
  | cons x pre' ih =>
      intro e post err hpre he
      obtain ⟨o, ho⟩ := hpre x (List.mem_cons_self _ _)
      obtain ⟨nx, rx⟩ := x
      simp only at ho
      simp only [List.cons_append, runEntries, ho, List.append_eq]
      rw [ih e post err (fun y hy => hpre y (List.mem_cons_of_mem _ hy)) he]
      cases o <;> simp [List.filterMap_cons, ho, Except.toOption]

/-- C7: within one page, XObject entries are processed in order; the first
failing entry short-circuits the page, the page resolver returns that first
error, and no later entry of the page is processed (its files never
appear). -/
theorem C7_first_entry_failure_short_circuits_page (dec : Bytes → Except PDFConError Bytes)
    (u : Unpack) (doc : Document) (pn tp : Nat) (page_dict rd : Dict)
    (pre post : List (String × Obj)) (e : String × Obj) (err : PDFConError)
    (hres : dictGet page_dict "Resources" = .ok (.dict rd))
    (hxo : dictGet rd "XObject" = .ok (.dict (pre ++ e :: post)))
    (hpre : ∀ x ∈ pre, ∃ o, process_xobject dec u doc pn tp x.2 = .ok o)
    (he : process_xobject dec u doc pn tp e.2 = .error err) :
    find_xobject_images_in_page dec u doc pn page_dict tp =
      (pre.filterMap (fun x => ((process_xobject dec u doc pn tp x.2).toOption).bind id),
       some err) := by
  unfold find_xobject_images_in_page
  simp only [hres, as_dict, hxo]
  exact runEntries_prefix_error dec u doc pn tp pre e post err hpre he

theorem C7_first_entry_failure_short_circuits_page_witness :
    find_xobject_images_in_page dec0 u0 docC7 1 pageDictC7 2 =
      ([OutFile.jpeg "out/1.jpg" [1, 2, 3] false], some .objectNotFound) := by
  have h := C7_first_entry_failure_short_circuits_page dec0 u0 docC7 1 2 pageDictC7
    [("XObject", .dict xdC7)] [("A", .ref (1, 0))] [("C", .ref (2, 0))]
    ("B", .ref (9, 0)) .objectNotFound rfl rfl ?_ rfl
  · exact h
  · intro x hx
    simp only [List.mem_singleton] at hx
    subst hx
    exact ⟨some (OutFile.jpeg "out/1.jpg" [1, 2, 3] false), rfl⟩

lemma mem_dictRemove (p : String × Obj) (d : Dict) (k : String) :
    p ∈ dictRemove d k ↔ p ∈ d ∧ p.1 ≠ k := by
  induction d with
  | nil => simp [dictRemove]
  | cons hd tl ih =>
      obtain ⟨k', v⟩ := hd
      unfold dictRemove
      by_cases hk : k' = k
      · subst hk
        rw [if_pos rfl, ih]
        simp only [List.mem_cons]
        constructor
        · rintro ⟨hp, hne⟩
          exact ⟨Or.inr hp, hne⟩
        · rintro ⟨rfl | hp, hne⟩
          · exact absurd rfl hne
          · exact ⟨hp, hne⟩
      · rw [if_neg hk]
        simp only [List.mem_cons, ih]
        constructor
        · rintro (rfl | ⟨hp, hne⟩)
          · exact ⟨Or.inl rfl, hk⟩
          · exact ⟨Or.inr hp, hne⟩
        · rintro ⟨rfl | hp, hne⟩
          · exact Or.inl rfl
          · exact Or.inr ⟨hp, hne⟩

/-- The seven sequential removes keep exactly the entries whose key is not
one of the stripped metadata keys. -/
lemma mem_stripMeta (p : String × Obj) (d : Dict) :
    p ∈ stripMeta d ↔ p ∈ d ∧ p.1 ∉ removedKeys := by
  simp only [stripMeta, mem_dictRemove, removedKeys, List.mem_cons, List.not_mem_nil]
  tauto

/-- C8: the preprocessing filter excludes objects whose structural type is
in the ignore set; a surviving dictionary object has exactly the
non-metadata entries of the original (the producer, modification-date,
creator, procedure-set, media-box and annotation keys are removed), is
dropped when that removal empties it, and is otherwise kept — so every
retained dictionary has at least one meaningful (non-metadata) key.
Non-dictionary objects outside the ignore set pass through unchanged. -/
theorem C8_filter_func_behavior (il : List String) (id : Nat × Nat) (o : Obj) :
    (typeName o ∈ il → filter_func il id o = none) ∧
    (typeName o ∉ il → ∀ d, o = .dict d → stripMeta d = [] → filter_func il id o = none) ∧
    (typeName o ∉ il → ∀ d, o = .dict d → stripMeta d ≠ [] →
      filter_func il id o = some (id, .dict (stripMeta d))) ∧
    (∀ p (d : Dict), o = .dict d → (p ∈ stripMeta d ↔ p ∈ d ∧ p.1 ∉ removedKeys)) ∧
    (∀ (d d' : Dict), o = .dict d → filter_func il id o = some (id, .dict d') →
      ∃ p ∈ d', p.1 ∉ removedKeys) ∧
    (typeName o ∉ il → (∀ d, o ≠ .dict d) → filter_func il id o = some (id, o)) := by
  refine ⟨?_, ?_, ?_, ?_, ?_, ?_⟩
  · intro h
    unfold filter_func
    rw [if_pos h]
  · rintro h d rfl hempty
    simp [filter_func, h, List.isEmpty_iff, hempty]
  · rintro h d rfl hne
    simp [filter_func, h, List.isEmpty_iff, hne]
  · rintro p d rfl
    exact mem_stripMeta p d
  · rintro d d' rfl hf
    unfold filter_func at hf
    by_cases h : typeName (Obj.dict d) ∈ il
    · rw [if_pos h] at hf
      exact Option.noConfusion hf
    · rw [if_neg h] at hf
      by_cases hempty : (stripMeta d).isEmpty
      · simp [hempty] at hf
      · simp only [hempty, Bool.false_eq_true, if_false] at hf
        simp only [Option.some.injEq, Prod.mk.injEq, Obj.dict.injEq] at hf
        obtain ⟨-, hd'⟩ := hf
        subst hd'
        obtain ⟨p, hp⟩ := List.exists_mem_of_ne_nil (stripMeta d)
          (by intro hc; rw [hc] at hempty; simp at hempty)
        exact ⟨p, hp, ((mem_stripMeta p d).mp hp).2⟩
  · intro h hnd
    unfold filter_func
    rw [if_neg h]
    cases o with
    | dict d => exact absurd rfl (hnd d)
    | null => rfl
    | boolean b => rfl
    | integer i => rfl
    | real => rfl
    | name s => rfl
    | string s => rfl
    | array xs => rfl
    | stream sd c => rfl
    | ref r => rfl

theorem C8_filter_func_behavior_witness :
    filter_func ["ObjStm"] (3, 0) (.dict [("Creator", .string "x"), ("W", .integer 5)]) =
      some ((3, 0), .dict [("W", .integer 5)]) := by
  have h := (C8_filter_func_behavior ["ObjStm"] (3, 0)
    (.dict [("Creator", .string "x"), ("W", .integer 5)])).2.2.1
  exact h (by decide) [("Creator", .string "x"), ("W", .integer 5)] rfl
    (by intro hc; exact List.noConfusion (((by rfl :
      stripMeta [("Creator", .string "x"), ("W", .integer 5)] =
        [("W", .integer 5)])).symm.trans hc))
